import Mathlib

/-!
# Verification of the medical-scribe browser application

Shallow embedding of the single source file `src/App.js` of the
`medical-scribe-v2` repository.  Pure string/list manipulation is translated
to Lean functions; the React state updates of each user action are modelled
as explicit state-passing functions over an `AppState` record; the outcomes
of the two external asynchronous services (microphone permission, speech
stream start/stop, completion HTTP call) are passed in as explicit outcome
values, and the external side effects an action performs (microphone
request, network call) are returned as explicit fields of the result.
-/

namespace MedScribe

/-! ## Generic string helpers -/

/-- Boolean test that `pat` occurs at the start of `s` (on character lists). -/
def startsWithChars : List Char → List Char → Bool
  | [], _ => true
  | _ :: _, [] => false
  | p :: ps, c :: cs => p = c && startsWithChars ps cs

/-- Boolean substring test on character lists, used to model the JavaScript
`String.prototype.includes` calls of the source. -/
def hasSubChars (pat : List Char) : List Char → Bool
  | [] => pat.isEmpty
  | c :: cs => startsWithChars pat (c :: cs) || hasSubChars pat cs

/-- Models `s.includes(pat)` from JavaScript. -/
def hasSubstr (s pat : String) : Bool :=
  hasSubChars pat.data s.data

/-- The whitespace characters stripped by JavaScript `String.prototype.trim`
(restricted to the ASCII whitespace actually relevant here). -/
def isJsWs (c : Char) : Bool :=
  c = ' ' || c = '\t' || c = '\n' || c = '\r' || c = '\x0b' || c = '\x0c'

/-- Models `s.trim()` from JavaScript: strips leading and trailing
whitespace. -/
def jsTrim (s : String) : String :=
  ⟨((s.data.dropWhile isJsWs).reverse.dropWhile isJsWs).reverse⟩

/-! ## Data model (spec section 3, mirrored from the state initialisers of
`App.js` and the object literals built in `addPatient` / `saveVisitToPatient`) -/

/-- A visit record, as built in `saveVisitToPatient` (`App.js` lines 134-140). -/
structure Visit where
  id : Nat
  date : String
  transcript : String
  notes : String
  timestamp : String
deriving DecidableEq, Repr

/-- A patient record, as built in `addPatient` (`App.js` lines 108-113). -/
structure Patient where
  id : Nat
  name : String
  dob : String
  mrn : String
  conditions : String
  visits : List Visit
  createdAt : String
deriving DecidableEq, Repr

/-- The AI note preferences document (`App.js` lines 20-25). -/
structure AiPreferences where
  noteStyle : String
  includeAssessment : Bool
  includePlan : Bool
  customInstructions : String
deriving DecidableEq, Repr

/-- The API settings document (`App.js` lines 29-36). -/
structure ApiSettings where
  speechKey : String
  speechRegion : String
  openaiEndpoint : String
  openaiKey : String
  openaiDeployment : String
  openaiApiVersion : String
deriving DecidableEq, Repr

/-- The mutable component state of `App` that the modelled actions read and
write: the `useState` hooks of lines 7-37 plus the `recognizerRef` engine
handle (line 40), which we model as an opaque numeric token. -/
structure AppState where
  isRecording : Bool
  transcript : String
  medicalNotes : String
  isProcessing : Bool
  status : String
  patients : List Patient
  selectedPatient : Option Patient
  aiPreferences : AiPreferences
  apiSettings : ApiSettings
  recognizer : Option Nat
  showSettings : Bool
deriving DecidableEq, Repr

/-! ## Speech recognition events (`App.js` lines 181-191) -/

/-- The vendor result-reason enumeration, restricted to the distinction the
code makes: `RecognizedSpeech` versus everything else (`NoMatch` etc.). -/
inductive ResultReason where
  | recognizedSpeech
  | noMatch
  | canceled
deriving DecidableEq, Repr

/-- The payload of a recognition event: `e.result`. -/
structure RecognitionResult where
  text : String
  reason : ResultReason
deriving DecidableEq, Repr

/-- An event delivered by the continuous recognition stream: `recognizing`
carries interim hypotheses, `recognized` carries finalized phrases. -/
inductive SpeechEvent where
  | recognizing (result : RecognitionResult)
  | recognized (result : RecognitionResult)
deriving DecidableEq, Repr

/-- The `recognizing` handler (`App.js` lines 181-185): appends a space and
the event text to the transcript whenever the text is non-empty (JavaScript
truthiness of the string). -/
def onRecognizing (t : String) (r : RecognitionResult) : String :=
  if r.text = "" then t else t ++ " " ++ r.text

/-- The `recognized` handler (`App.js` lines 187-191): appends only when the
reason is `RecognizedSpeech` and the text is non-empty. -/
def onRecognized (t : String) (r : RecognitionResult) : String :=
  if r.reason = ResultReason.recognizedSpeech ∧ r.text ≠ "" then
    t ++ " " ++ r.text
  else t

/-- Dispatch one stream event to the matching handler. -/
def applyEvent (t : String) (e : SpeechEvent) : String :=
  match e with
  | .recognizing r => onRecognizing t r
  | .recognized r => onRecognized t r

/-- Fold an event log over the transcript in delivery order (the engine
delivers events one at a time on the single-threaded event loop). -/
def applyEvents (t : String) (es : List SpeechEvent) : String :=
  es.foldl applyEvent t

/-- Which events contribute text to the transcript, read off the two
handlers: non-empty interim texts, and non-empty final texts whose reason is
`RecognizedSpeech`. -/
def keepEvent : SpeechEvent → Option String
  | .recognizing r => if r.text = "" then none else some r.text
  | .recognized r =>
      if r.reason = ResultReason.recognizedSpeech ∧ r.text ≠ "" then some r.text
      else none

/-- The text a given event log appends to the transcript: for every kept
event, a single separating space followed by its text. -/
def appendedText : List SpeechEvent → String
  | [] => ""
  | e :: es =>
      (match keepEvent e with
       | some t => " " ++ t
       | none => "") ++ appendedText es

/-- Modelled from the claim wording, for comparison with the code: the
space-joined concatenation of the interim texts and the final-recognized
texts, in delivery order. -/
def claimJoinedTranscript (es : List SpeechEvent) : String :=
  String.intercalate " " (es.filterMap fun e =>
    match e with
    | .recognizing r => some r.text
    | .recognized r =>
        if r.reason = ResultReason.recognizedSpeech then some r.text else none)

/-! ## Recording session: `startRecording` (`App.js` lines 153-220) -/

/-- Outcome of the microphone permission request (`getUserMedia`). -/
inductive PermissionOutcome where
  | granted
  | denied
deriving DecidableEq, Repr

/-- Outcome reported by `startContinuousRecognitionAsync`: the success
callback, or the error callback with the error rendered as a string. -/
inductive StartOutcome where
  | success
  | failed (error : String)
deriving DecidableEq, Repr

/-- Result of a `startRecording` call: the final component state plus which
external effects were performed. -/
structure StartResult where
  state : AppState
  micRequested : Bool
  streamStartAttempted : Bool
deriving DecidableEq, Repr

def speechConfigMsg : String :=
  "❌ Please configure Azure Speech settings first (click 🔧 API Settings)"

def micDeniedMsg : String :=
  "❌ Microphone permission denied. Please allow microphone access."

def recordingMsg : String := "🔴 Recording... Speak now"

def invalidSpeechKeyMsg : String :=
  "❌ Invalid Speech key. Check your Azure Speech Service key in API Settings."

def speechQuotaMsg : String :=
  "❌ Speech service quota exceeded or region mismatch. Check API Settings."

/-- Classification of a recognition start error by the embedded vendor error
code (`App.js` lines 206-212). -/
def classifyStartError (error : String) : String :=
  if hasSubstr error "1006" then invalidSpeechKeyMsg
  else if hasSubstr error "1007" then speechQuotaMsg
  else "❌ Recording failed: " ++ error

/-- `startRecording` (`App.js` lines 153-220).  The function checks only the
two speech credentials; it performs no check of `isRecording`.  On non-blank
credentials it requests the microphone; on grant it creates a fresh
recognizer (modelled by the caller-supplied `newHandle`) and attempts to
start the continuous stream, ending in the `Active` state on success or with
a classified error status on failure. -/
def startRecording (st : AppState) (perm : PermissionOutcome)
    (out : StartOutcome) (newHandle : Nat) : StartResult :=
  if st.apiSettings.speechKey = "" ∨ st.apiSettings.speechRegion = "" then
    { state := { st with status := speechConfigMsg, showSettings := true },
      micRequested := false, streamStartAttempted := false }
  else
    match perm with
    | .denied =>
        { state := { st with status := micDeniedMsg },
          micRequested := true, streamStartAttempted := false }
    | .granted =>
        let st1 := { st with recognizer := some newHandle }
        match out with
        | .success =>
            { state := { st1 with isRecording := true, status := recordingMsg },
              micRequested := true, streamStartAttempted := true }
        | .failed error =>
            { state := { st1 with isRecording := false,
                                  status := classifyStartError error },
              micRequested := true, streamStartAttempted := true }

/-- The start button of the view layer is disabled exactly while recording
(`App.js` line 629: `disabled={isRecording}`). -/
def startButtonDisabled (st : AppState) : Bool :=
  st.isRecording

/-! ## Recording session: `stopRecording` (`App.js` lines 222-240) -/

/-- Outcome reported by `stopContinuousRecognitionAsync`. -/
inductive StopOutcome where
  | success
  | failed (error : String)
deriving DecidableEq, Repr

/-- Result of a `stopRecording` call: the final state plus whether the engine
was asked to end the stream. -/
structure StopResult where
  state : AppState
  engineStopRequested : Bool
deriving DecidableEq, Repr

def recordingCompleteMsg : String := "✅ Recording complete"

def stopErrorMsg : String := "⚠️ Recording stopped with error"

/-- `stopRecording` (`App.js` lines 222-240): with a live engine handle it
requests the stream to end and, on either completion, leaves `isRecording`
false and nulls the handle; with no handle it just resets `isRecording` and
the status. -/
def stopRecording (st : AppState) (out : StopOutcome) : StopResult :=
  match st.recognizer with
  | some _ =>
      let st1 :=
        match out with
        | .success => { st with isRecording := false, status := recordingCompleteMsg }
        | .failed _ => { st with isRecording := false, status := stopErrorMsg }
      { state := { st1 with recognizer := none }, engineStopRequested := true }
  | none =>
      { state := { st with isRecording := false, status := recordingCompleteMsg },
        engineStopRequested := false }

/-! ## `saveVisitToPatient` (`App.js` lines 128-151) -/

def saveVisitErrorMsg : String :=
  "❌ Please select a patient and generate notes first"

def visitSavedMsg : String := "✅ Visit notes saved to patient record"

/-- `saveVisitToPatient` (`App.js` lines 128-151).  The fresh visit id and the
two clock-derived strings (`new Date().toISOString()`, `toLocaleString()`)
are passed in explicitly. -/
def saveVisitToPatient (st : AppState) (newVisitId : Nat)
    (dateStr tsStr : String) : AppState :=
  match st.selectedPatient with
  | none => { st with status := saveVisitErrorMsg }
  | some sel =>
      if jsTrim st.medicalNotes = "" then
        { st with status := saveVisitErrorMsg }
      else
        let visit : Visit :=
          { id := newVisitId, date := dateStr, transcript := st.transcript,
            notes := st.medicalNotes, timestamp := tsStr }
        let updated := st.patients.map fun p =>
          if p.id = sel.id then { p with visits := p.visits ++ [visit] } else p
        { st with patients := updated,
                  selectedPatient := updated.find? (fun p => p.id = sel.id),
                  status := visitSavedMsg }

/-! ## Note generation (`App.js` lines 242-349) -/

def noTranscriptMsg : String := "❌ No transcript available. Please record first."

def openAiConfigMsg : String :=
  "❌ Please configure Azure OpenAI settings first (click 🔧 API Settings)"

def genSuccessMsg : String := "✅ Medical notes generated successfully"

def authFailedMsg : String :=
  "❌ OpenAI authentication failed. Check your API key in settings."

def deploymentNotFoundMsg : String :=
  "❌ OpenAI deployment not found. Check your deployment name in settings."

def rateLimitMsg : String :=
  "❌ OpenAI rate limit exceeded. Wait a moment and try again."

/-- The observable shape of an axios error: the optional HTTP status of the
response (`error.response?.status`), the optional structured service message
(`error.response?.data?.error?.message`), and the plain `error.message`. -/
structure AxiosError where
  responseStatus : Option Nat
  responseDataErrorMessage : Option String
  message : String
deriving DecidableEq, Repr

/-- Outcome of the completion-service HTTP round trip. -/
inductive CompletionOutcome where
  | success (content : String)
  | failed (e : AxiosError)
deriving DecidableEq, Repr

/-- Models the JavaScript `a || b` fallback on an optional string: `b` is
used when `a` is absent or empty. -/
def jsOrElse (a : Option String) (b : String) : String :=
  match a with
  | some s => if s = "" then b else s
  | none => b

/-- Classification of a completion-service failure (`App.js` lines 337-345):
HTTP 401, 404 and 429 get dedicated messages, anything else the generic
message carrying the service or transport error text. -/
def classifyGenError (e : AxiosError) : String :=
  if e.responseStatus = some 401 then authFailedMsg
  else if e.responseStatus = some 404 then deploymentNotFoundMsg
  else if e.responseStatus = some 429 then rateLimitMsg
  else "❌ Failed to generate notes: " ++ jsOrElse e.responseDataErrorMessage e.message

/-- The one-visit digest used in the patient context block (`App.js` lines
275-277): timestamp, colon, the first 200 characters of the notes, ellipsis. -/
def visitDigest (v : Visit) : String :=
  v.timestamp ++ ": " ++ v.notes.take 200 ++ "..."

/-- Models `visits.slice(-3)`: the up-to-three most recent visits. -/
def lastThreeVisits (l : List Visit) : List Visit :=
  l.drop (l.length - 3)

/-- The patient context block (`App.js` lines 265-279); empty when no patient
is selected. -/
def buildPatientContext : Option Patient → String
  | none => ""
  | some p =>
      "\nPATIENT CONTEXT:\nName: " ++ p.name ++
      "\nDOB: " ++ p.dob ++
      "\nMRN: " ++ p.mrn ++
      "\nKnown Conditions: " ++ p.conditions ++
      "\n\nRECENT VISIT HISTORY:\n" ++
      String.intercalate "\n" ((lastThreeVisits p.visits).map visitDigest) ++
      "\n"

/-- The system prompt assembly (`App.js` lines 282-301), translated
append-by-append from the source. -/
def buildSystemPrompt (prefs : AiPreferences) : String :=
  let p1 := "You are a medical scribe assistant specializing in obesity medicine. "
  let p2 :=
    if prefs.noteStyle = "detailed" then
      p1 ++ "Create comprehensive, detailed medical notes. "
    else if prefs.noteStyle = "concise" then
      p1 ++ "Create concise, focused medical notes. "
    else
      p1 ++ "Create standard medical notes. "
  let p3 := p2 ++ "Include the following sections: "
  let p4 := if prefs.includeAssessment then p3 ++ "Assessment, " else p3
  let p5 := if prefs.includePlan then p4 ++ "Plan, " else p4
  let p6 := p5 ++ "Chief Complaint, History of Present Illness. "
  let p7 :=
    if prefs.customInstructions = "" then p6
    else p6 ++ "Additional instructions: " ++ prefs.customInstructions ++ " "
  p7 ++ "Use appropriate medical terminology and maintain professional format."

/-- The user message content (`App.js` lines 313-318). -/
def buildUserContent (sel : Option Patient) (transcript : String) : String :=
  buildPatientContext sel ++
  "\n\nCURRENT VISIT TRANSCRIPT:\n" ++ transcript ++
  "\n\nPlease convert this into structured medical notes following the specified format and preferences."

/-- The completion request the code posts (`App.js` lines 303-330): target
URL, `api-key` header, the two-message exchange, and the fixed generation
ceiling (`max_tokens: 1500`; the fixed sampling temperature 0.3 is a
floating-point service parameter and is carried as tenths). -/
structure CompletionRequest where
  url : String
  apiKey : String
  systemContent : String
  userContent : String
  maxTokens : Nat
  temperatureTenths : Nat
deriving DecidableEq, Repr

/-- Builds the completion request from the current state. -/
def buildRequest (st : AppState) : CompletionRequest :=
  { url := st.apiSettings.openaiEndpoint ++ "openai/deployments/" ++
      st.apiSettings.openaiDeployment ++ "/chat/completions?api-version=" ++
      st.apiSettings.openaiApiVersion,
    apiKey := st.apiSettings.openaiKey,
    systemContent := buildSystemPrompt st.aiPreferences,
    userContent := buildUserContent st.selectedPatient st.transcript,
    maxTokens := 1500,
    temperatureTenths := 3 }

/-- Result of a `generateMedicalNotes` call: the final state, whether the
HTTP call was issued, and the request that was sent, if any. -/
structure GenResult where
  state : AppState
  networkCalled : Bool
  request : Option CompletionRequest
deriving DecidableEq, Repr

/-- `generateMedicalNotes` (`App.js` lines 242-349).  Fails fast without a
network call on a blank (trimmed-empty) transcript, then on a blank endpoint,
key or deployment (the API version is not checked).  Otherwise it posts the
request; on success the response content replaces `medicalNotes`, on failure
only the status is updated with the classified message; the `finally` block
always leaves `isProcessing` false. -/
def generateMedicalNotes (st : AppState) (out : CompletionOutcome) : GenResult :=
  if jsTrim st.transcript = "" then
    { state := { st with status := noTranscriptMsg },
      networkCalled := false, request := none }
  else if st.apiSettings.openaiEndpoint = "" ∨ st.apiSettings.openaiKey = "" ∨
      st.apiSettings.openaiDeployment = "" then
    { state := { st with status := openAiConfigMsg, showSettings := true },
      networkCalled := false, request := none }
  else
    match out with
    | .success content =>
        { state := { st with medicalNotes := content, status := genSuccessMsg,
                             isProcessing := false },
          networkCalled := true, request := some (buildRequest st) }
    | .failed e =>
        { state := { st with status := classifyGenError e, isProcessing := false },
          networkCalled := true, request := some (buildRequest st) }

/-! ## Spec-side decomposition of the system prompt (spec section 4.2, for
comparison with `buildSystemPrompt`) -/

def promptBase : String :=
  "You are a medical scribe assistant specializing in obesity medicine. "

def promptClosing : String :=
  "Use appropriate medical terminology and maintain professional format."

/-- The style clause selected by `noteStyle`, per the spec words: three fixed
variants. -/
def specStyleClause (style : String) : String :=
  if style = "detailed" then "Create comprehensive, detailed medical notes. "
  else if style = "concise" then "Create concise, focused medical notes. "
  else "Create standard medical notes. "

/-- The required-sections clause, per the spec words: conditionally include
the Assessment and Plan tokens, always include Chief Complaint and History of
Present Illness. -/
def specSectionsClause (includeAssessment includePlan : Bool) : String :=
  "Include the following sections: " ++
  (if includeAssessment then "Assessment, " else "") ++
  (if includePlan then "Plan, " else "") ++
  "Chief Complaint, History of Present Illness. "

/-- The custom-instructions clause, per the spec words: the custom
instructions verbatim when non-empty. -/
def specCustomClause (customInstructions : String) : String :=
  if customInstructions = "" then ""
  else "Additional instructions: " ++ customInstructions ++ " "

/-- The full prompt decomposition per the spec words: base sentence, style
clause, sections clause, custom clause, closing directive. -/
def specSystemPrompt (prefs : AiPreferences) : String :=
  promptBase ++ specStyleClause prefs.noteStyle ++
  specSectionsClause prefs.includeAssessment prefs.includePlan ++
  specCustomClause prefs.customInstructions ++ promptClosing

/-! ## JSON documents and the persistence boundary (`App.js` lines 44-99)

The browser JSON/localStorage pair is an external boundary of the
application; the code stores each document with
`localStorage.setItem(key, JSON.stringify(doc))` and reloads it at startup
with `JSON.parse(localStorage.getItem(key))`.  We model the document values
the application actually produces (strings, booleans, non-negative integer
timestamps, arrays and objects), the serializer of `JSON.stringify` on those
values, and the parser of `JSON.parse` on the whitespace-free grammar that
`JSON.stringify` emits. -/

/-- A JSON document value as produced by the application state. -/
inductive Json where
  | str (s : String)
  | num (n : Nat)
  | boolean (b : Bool)
  | arr (items : List Json)
  | obj (fields : List (String × Json))

/-- Lowercase hexadecimal digit character for `n < 16`. -/
def hexDigitChar (n : Nat) : Char :=
  if n < 10 then Char.ofNat (48 + n) else Char.ofNat (87 + n)

/-- The escaping `JSON.stringify` applies inside string literals: quote,
backslash, the named control escapes, and `\u00xx` for the remaining control
characters; all other characters are emitted verbatim. -/
def escapeChar (c : Char) : List Char :=
  if c = '"' then ['\\', '"']
  else if c = '\\' then ['\\', '\\']
  else if c = '\n' then ['\\', 'n']
  else if c = '\t' then ['\\', 't']
  else if c = '\r' then ['\\', 'r']
  else if c = '\x08' then ['\\', 'b']
  else if c = '\x0c' then ['\\', 'f']
  else if c.toNat < 32 then
    ['\\', 'u', '0', '0', hexDigitChar (c.toNat / 16), hexDigitChar (c.toNat % 16)]
  else [c]

/-- Escape a whole character sequence. -/
def escChars : List Char → List Char
  | [] => []
  | c :: cs => escapeChar c ++ escChars cs

/-- Decimal digit character for `d < 10`. -/
def digitChar (d : Nat) : Char :=
  Char.ofNat (48 + d)

/-- Decimal digits of `n`, most significant first, accumulated onto `acc`;
empty for `n = 0`. -/
def natCharsAux (n : Nat) (acc : List Char) : List Char :=
  if h : n = 0 then acc
  else natCharsAux (n / 10) (digitChar (n % 10) :: acc)
termination_by n
decreasing_by exact Nat.div_lt_self (Nat.pos_of_ne_zero h) (by omega)

/-- The decimal rendering of a natural number, as `JSON.stringify` prints the
integer timestamps of the documents. -/
def natChars (n : Nat) : List Char :=
  if n = 0 then ['0'] else natCharsAux n []

/-- The power of ten one past the decimal digits of `n` (10 for `n < 10`),
used to state the accumulator behaviour of digit parsing. -/
def pow10 (n : Nat) : Nat :=
  if h : n < 10 then 10 else 10 * pow10 (n / 10)
termination_by n
decreasing_by exact Nat.div_lt_self (by omega) (by omega)

mutual

/-- `JSON.stringify` on a document value (no indentation argument, hence no
whitespace), emitted as a character sequence. -/
def stringifyJson : Json → List Char
  | .str s => '"' :: (escChars s.data ++ ['"'])
  | .num n => natChars n
  | .boolean true => ['t', 'r', 'u', 'e']
  | .boolean false => ['f', 'a', 'l', 's', 'e']
  | .arr items => '[' :: (stringifyItems items ++ [']'])
  | .obj fields => '\x7b' :: (stringifyFields fields ++ ['\x7d'])

/-- Comma-separated rendering of array elements. -/
def stringifyItems : List Json → List Char
  | [] => []
  | [j] => stringifyJson j
  | j :: j2 :: rest => stringifyJson j ++ (',' :: stringifyItems (j2 :: rest))

/-- Comma-separated rendering of object fields. -/
def stringifyFields : List (String × Json) → List Char
  | [] => []
  | [(k, v)] => fieldChars k v
  | (k, v) :: f2 :: rest => fieldChars k v ++ (',' :: stringifyFields (f2 :: rest))

/-- Rendering of a single `"key":value` field. -/
def fieldChars (k : String) (v : Json) : List Char :=
  '"' :: (escChars k.data ++ ('"' :: ':' :: stringifyJson v))

end

/-- Value of a hexadecimal digit character. -/
def hexVal (c : Char) : Option Nat :=
  if '0' ≤ c ∧ c ≤ '9' then some (c.toNat - 48)
  else if 'a' ≤ c ∧ c ≤ 'f' then some (c.toNat - 87)
  else if 'A' ≤ c ∧ c ≤ 'F' then some (c.toNat - 55)
  else none

/-- The single-character JSON string escapes accepted by `JSON.parse`. -/
def unescapeChar (c : Char) : Option Char :=
  if c = '"' then some '"'
  else if c = '\\' then some '\\'
  else if c = '/' then some '/'
  else if c = 'n' then some '\n'
  else if c = 't' then some '\t'
  else if c = 'r' then some '\r'
  else if c = 'b' then some '\x08'
  else if c = 'f' then some '\x0c'
  else none

/-- Parse the body of a JSON string literal (after the opening quote) up to
and including the closing quote, returning the decoded characters and the
remaining input. -/
def parseStrChars : List Char → Option (List Char × List Char)
  | [] => none
  | c :: rest =>
    if c = '"' then some ([], rest)
    else if c = '\\' then
      match rest with
      | [] => none
      | e :: rest2 =>
        if e = 'u' then
          match rest2 with
          | h1 :: h2 :: h3 :: h4 :: rest3 =>
            match hexVal h1, hexVal h2, hexVal h3, hexVal h4 with
            | some a, some b, some c2, some d =>
              (parseStrChars rest3).map fun p =>
                (Char.ofNat (((a * 16 + b) * 16 + c2) * 16 + d) :: p.1, p.2)
            | _, _, _, _ => none
          | _ => none
        else
          match unescapeChar e with
          | some u => (parseStrChars rest2).map fun p => (u :: p.1, p.2)
          | none => none
    else (parseStrChars rest).map fun p => (c :: p.1, p.2)
termination_by cs => cs.length

/-- Parse a run of decimal digits into an accumulator, stopping at the first
non-digit. -/
def parseDigits (a : Nat) : List Char → Nat × List Char
  | [] => (a, [])
  | c :: rest =>
    if c.isDigit then parseDigits (a * 10 + (c.toNat - 48)) rest
    else (a, c :: rest)

/-- One step of `JSON.parse` on a single value of the whitespace-free
grammar emitted by `JSON.stringify`; the parsers for the element and field
lists of nested arrays and objects are passed in explicitly. -/
def parseValStep (pItems : List Char → Option (List Json × List Char))
    (pFields : List Char → Option (List (String × Json) × List Char)) :
    List Char → Option (Json × List Char)
  | [] => none
  | c :: cs =>
    if c = '"' then
      (parseStrChars cs).map fun p => (Json.str ⟨p.1⟩, p.2)
    else if c = '[' then
      match cs with
      | ']' :: r => some (Json.arr [], r)
      | _ => (pItems cs).map fun p => (Json.arr p.1, p.2)
    else if c = '\x7b' then
      match cs with
      | '\x7d' :: r => some (Json.obj [], r)
      | _ => (pFields cs).map fun p => (Json.obj p.1, p.2)
    else if c = 't' then
      match cs with
      | 'r' :: 'u' :: 'e' :: r => some (Json.boolean true, r)
      | _ => none
    else if c = 'f' then
      match cs with
      | 'a' :: 'l' :: 's' :: 'e' :: r => some (Json.boolean false, r)
      | _ => none
    else if c.isDigit then
      some (Json.num (parseDigits 0 (c :: cs)).1, (parseDigits 0 (c :: cs)).2)
    else none

/-- One step of parsing the non-empty element list of an array, consuming
the closing bracket: one value, then either a comma and the rest of the list
or the closing bracket. -/
def parseItemsStep (pVal : List Char → Option (Json × List Char))
    (pNext : List Char → Option (List Json × List Char))
    (cs : List Char) : Option (List Json × List Char) :=
  match pVal cs with
  | none => none
  | some (v, r) =>
    match r with
    | ',' :: r2 => (pNext r2).map fun p => (v :: p.1, p.2)
    | ']' :: r2 => some ([v], r2)
    | _ => none

/-- One step of parsing the non-empty field list of an object, consuming the
closing brace: a quoted key, a colon, a value, then either a comma and the
rest or the closing brace. -/
def parseFieldsStep (pVal : List Char → Option (Json × List Char))
    (pNext : List Char → Option (List (String × Json) × List Char)) :
    List Char → Option (List (String × Json) × List Char)
  | '"' :: cs2 =>
    (match parseStrChars cs2 with
     | none => none
     | some (kcs, r) =>
       match r with
       | ':' :: r2 =>
         (match pVal r2 with
          | none => none
          | some (v, r3) =>
            match r3 with
            | ',' :: r4 => (pNext r4).map fun p => ((⟨kcs⟩, v) :: p.1, p.2)
            | '\x7d' :: r4 => some ([(⟨kcs⟩, v)], r4)
            | _ => none)
       | _ => none)
  | _ => none

mutual

/-- `JSON.parse` on a single value, with a fuel bound on nesting depth. -/
def parseVal : Nat → List Char → Option (Json × List Char)
  | 0, _ => none
  | fuel + 1, cs => parseValStep (parseItems fuel) (parseFields fuel) cs

/-- Parse the non-empty element list of an array. -/
def parseItems : Nat → List Char → Option (List Json × List Char)
  | 0, _ => none
  | fuel + 1, cs => parseItemsStep (parseVal fuel) (parseItems fuel) cs

/-- Parse the non-empty field list of an object. -/
def parseFields : Nat → List Char → Option (List (String × Json) × List Char)
  | 0, _ => none
  | fuel + 1, cs => parseFieldsStep (parseVal fuel) (parseFields fuel) cs

end

mutual

/-- Fuel weight of a value: an upper bound on the nesting fuel `parseVal`
needs to parse its rendering. -/
def jweight : Json → Nat
  | .str _ => 1
  | .num _ => 1
  | .boolean _ => 1
  | .arr items => 1 + jweightItems items
  | .obj fields => 1 + jweightFields fields

/-- Fuel weight of an array element list. -/
def jweightItems : List Json → Nat
  | [] => 0
  | j :: rest => 1 + jweight j + jweightItems rest

/-- Fuel weight of an object field list. -/
def jweightFields : List (String × Json) → Nat
  | [] => 0
  | (_, v) :: rest => 1 + jweight v + jweightFields rest

end

/-- Bool-valued test that the input does not start with a digit (the context
following a rendered number in a rendered document). -/
def headNotDigit : List Char → Bool
  | [] => true
  | c :: _ => !c.isDigit

/-- `JSON.stringify` producing a Lean string. -/
def stringifyString (j : Json) : String :=
  ⟨stringifyJson j⟩

/-- `JSON.parse` of a whole document: the parsed value, provided the entire
input is consumed. -/
def parseJsonString (s : String) : Option Json :=
  match parseVal (s.length + 1) s.data with
  | some (j, []) => some j
  | _ => none

/-! ## The persistent key-value store (`localStorage`) -/

/-- The key-value store: keys to serialized documents. -/
def Storage : Type :=
  String → Option String

/-- `localStorage.setItem`. -/
def storageSet (store : Storage) (key value : String) : Storage :=
  fun k => if k = key then some value else store k

def patientsKey : String := "medicalScribePatients"

def preferencesKey : String := "medicalScribePreferences"

def apiSettingsKey : String := "medicalScribeApiSettings"

/-- The storage half of `savePatients` (`App.js` lines 72-79):
`localStorage.setItem('medicalScribePatients', JSON.stringify(updatedPatients))`. -/
def savePatientsStorage (store : Storage) (doc : Json) : Storage :=
  storageSet store patientsKey (stringifyString doc)

/-- The storage half of `savePreferences` (`App.js` lines 82-89). -/
def savePreferencesStorage (store : Storage) (doc : Json) : Storage :=
  storageSet store preferencesKey (stringifyString doc)

/-- The storage half of `saveApiSettings` (`App.js` lines 92-99). -/
def saveApiSettingsStorage (store : Storage) (doc : Json) : Storage :=
  storageSet store apiSettingsKey (stringifyString doc)

/-- The startup load (`App.js` lines 44-69): read each fixed key and
`JSON.parse` the stored document; the parsed values become the in-memory
documents verbatim (`setPatients(JSON.parse(savedPatients))` etc.). -/
def loadStartup (store : Storage) : Option Json × Option Json × Option Json :=
  ((store patientsKey).bind parseJsonString,
   (store preferencesKey).bind parseJsonString,
   (store apiSettingsKey).bind parseJsonString)

/-! ## The in-memory documents as JSON values

The shapes below mirror the object literals the code builds: `addPatient`
(`App.js` lines 108-113), `saveVisitToPatient` (lines 134-140) and the two
settings state initialisers. -/

/-- The JSON value of a visit record. -/
def encVisit (v : Visit) : Json :=
  Json.obj [("id", Json.num v.id), ("date", Json.str v.date),
            ("transcript", Json.str v.transcript), ("notes", Json.str v.notes),
            ("timestamp", Json.str v.timestamp)]

/-- The JSON value of a patient record. -/
def encPatient (p : Patient) : Json :=
  Json.obj [("id", Json.num p.id), ("name", Json.str p.name),
            ("dob", Json.str p.dob), ("mrn", Json.str p.mrn),
            ("conditions", Json.str p.conditions),
            ("visits", Json.arr (p.visits.map encVisit)),
            ("createdAt", Json.str p.createdAt)]

/-- The JSON value of the whole patient list. -/
def encPatients (ps : List Patient) : Json :=
  Json.arr (ps.map encPatient)

/-- The JSON value of the AI preferences document. -/
def encPreferences (prefs : AiPreferences) : Json :=
  Json.obj [("noteStyle", Json.str prefs.noteStyle),
            ("includeAssessment", Json.boolean prefs.includeAssessment),
            ("includePlan", Json.boolean prefs.includePlan),
            ("customInstructions", Json.str prefs.customInstructions)]

/-- The JSON value of the API settings document. -/
def encApiSettings (s : ApiSettings) : Json :=
  Json.obj [("speechKey", Json.str s.speechKey),
            ("speechRegion", Json.str s.speechRegion),
            ("openaiEndpoint", Json.str s.openaiEndpoint),
            ("openaiKey", Json.str s.openaiKey),
            ("openaiDeployment", Json.str s.openaiDeployment),
            ("openaiApiVersion", Json.str s.openaiApiVersion)]

/-! ## Concrete example values used to instantiate the theorems -/

def defaultPrefs : AiPreferences :=
  { noteStyle := "standard", includeAssessment := true, includePlan := true,
    customInstructions := "" }

def concisePrefsEx : AiPreferences :=
  { noteStyle := "concise", includeAssessment := false, includePlan := true,
    customInstructions := "" }

def exSettingsFull : ApiSettings :=
  { speechKey := "sk", speechRegion := "eastus",
    openaiEndpoint := "https://res.openai.azure.com/", openaiKey := "ok",
    openaiDeployment := "gpt-4.1", openaiApiVersion := "2024-08-01-preview" }

def exBase : AppState :=
  { isRecording := false, transcript := "", medicalNotes := "",
    isProcessing := false, status := "Ready to record", patients := [],
    selectedPatient := none, aiPreferences := defaultPrefs,
    apiSettings := exSettingsFull, recognizer := none, showSettings := false }

def exFailState : AppState :=
  { exBase with transcript := "Patient reports fatigue",
                medicalNotes := "Prior visit notes" }

def ex429 : AxiosError :=
  { responseStatus := some 429, responseDataErrorMessage := none,
    message := "Request failed with status code 429" }

def exWsState : AppState :=
  { exBase with transcript := "   ", medicalNotes := "Kept notes",
                isProcessing := true }

def exActiveState : AppState :=
  { exBase with isRecording := true, recognizer := some 1,
                status := recordingMsg, transcript := " hello" }

def exIdleState : AppState :=
  exBase

def exVisit0 : Visit :=
  { id := 100, date := "2026-01-01T00:00:00.000Z", transcript := "old talk",
    notes := "old notes", timestamp := "1/1/2026, 10:00:00 AM" }

def exPatientA : Patient :=
  { id := 1, name := "Alice", dob := "1980-01-01", mrn := "MRN1",
    conditions := "hypertension", visits := [],
    createdAt := "2026-01-01T00:00:00.000Z" }

def exPatientB : Patient :=
  { id := 2, name := "Bob", dob := "1975-05-05", mrn := "MRN2",
    conditions := "obesity", visits := [exVisit0],
    createdAt := "2026-01-02T00:00:00.000Z" }

def exSaveState : AppState :=
  { exBase with patients := [exPatientA, exPatientB],
                selectedPatient := some exPatientB,
                transcript := " visit talk",
                medicalNotes := "Assessment: stable" }

def exNoVersionState : AppState :=
  { exBase with transcript := "hello doctor",
                apiSettings := { exSettingsFull with openaiApiVersion := "" } }

def exNoKeyState : AppState :=
  { exBase with transcript := "hello doctor",
                apiSettings := { exSettingsFull with openaiKey := "" } }

def exNoSelState : AppState :=
  { exBase with medicalNotes := "Some notes", transcript := "t" }

/-! # Theorems -/

/-! ## Small string lemmas -/

theorem str_empty_append (s : String) : "" ++ s = s := by
  cases s
  rfl

theorem str_append_empty (s : String) : s ++ "" = s := by
  cases s
  simp [String.append]

/-! ## C1: transcript accumulation -/

theorem applyEvent_eq (t : String) (e : SpeechEvent) :
    applyEvent t e =
      t ++ (match keepEvent e with
            | some x => " " ++ x
            | none => "") := by
  cases e with
  | recognizing r =>
      by_cases h : r.text = "" <;>
        simp [applyEvent, onRecognizing, keepEvent, h, str_append_empty,
          String.append_assoc]
  | recognized r =>
      by_cases h : r.reason = ResultReason.recognizedSpeech ∧ r.text ≠ "" <;>
        simp [applyEvent, onRecognized, keepEvent, h, str_append_empty,
          String.append_assoc]

/-- C1 (amended): for every starting transcript and event log delivered while
`Active`, the resulting transcript is the starting transcript followed by,
for each interim event with non-empty text and each final event with reason
`RecognizedSpeech` and non-empty text, in delivery order, one separating
space and that text (so each appended fragment is space-prefixed rather than
space-joined, and empty-text events are discarded).  The result is a pure
function of the start and the log, hence replaying the same log from the
same start yields the same transcript. -/
theorem transcript_fold_characterization (t : String) (es : List SpeechEvent) :
    applyEvents t es = t ++ appendedText es := by
  induction es generalizing t with
  | nil => simp [applyEvents, appendedText, str_append_empty]
  | cons e es ih =>
      show applyEvents (applyEvent t e) es = _
      rw [ih, applyEvent_eq, appendedText, String.append_assoc]

/-- C1 counterexample: a single interim event with text `"hello"` delivered
to an empty transcript yields `" hello"` (leading separator space), while the
space-joined concatenation of the delivered texts claimed by the spec is
`"hello"`. -/
theorem transcript_joined_counterexample :
    applyEvents ""
      [SpeechEvent.recognizing
        { text := "hello", reason := ResultReason.recognizedSpeech }] = " hello" ∧
    claimJoinedTranscript
      [SpeechEvent.recognizing
        { text := "hello", reason := ResultReason.recognizedSpeech }] = "hello" ∧
    (" hello" : String) ≠ "hello" := by
  refine ⟨rfl, rfl, by decide⟩

/-! ## C2: note-generation failure handling -/

/-- C2 (amended): for every failure of the completion-service call (given a
non-blank transcript and non-blank endpoint, key and deployment), the
operation sets the failure-category-specific status message (HTTP 429 gets
the rate-limit message) and clears `isProcessing`, but leaves `medicalNotes`
unchanged: stale prior content is retained, no error placeholder is written
into `medicalNotes`. -/
theorem generate_failure_classified_notes_unchanged (st : AppState)
    (e : AxiosError)
    (ht : jsTrim st.transcript ≠ "")
    (hep : st.apiSettings.openaiEndpoint ≠ "")
    (hk : st.apiSettings.openaiKey ≠ "")
    (hd : st.apiSettings.openaiDeployment ≠ "") :
    (generateMedicalNotes st (CompletionOutcome.failed e)).state.medicalNotes
        = st.medicalNotes ∧
    (generateMedicalNotes st (CompletionOutcome.failed e)).state.status
        = classifyGenError e ∧
    (generateMedicalNotes st (CompletionOutcome.failed e)).state.isProcessing
        = false ∧
    (generateMedicalNotes st (CompletionOutcome.failed e)).networkCalled = true ∧
    (e.responseStatus = some 429 →
      (generateMedicalNotes st (CompletionOutcome.failed e)).state.status
        = rateLimitMsg) := by
  unfold generateMedicalNotes
  rw [if_neg ht, if_neg (by simp [hep, hk, hd])]
  refine ⟨rfl, rfl, rfl, rfl, fun h429 => ?_⟩
  simp [classifyGenError, h429]

theorem generate_failure_classified_notes_unchanged_witness :
    (generateMedicalNotes exFailState (CompletionOutcome.failed ex429)).state.medicalNotes
        = exFailState.medicalNotes ∧
    (generateMedicalNotes exFailState (CompletionOutcome.failed ex429)).state.status
        = rateLimitMsg ∧
    (generateMedicalNotes exFailState (CompletionOutcome.failed ex429)).state.isProcessing
        = false ∧
    (generateMedicalNotes exFailState (CompletionOutcome.failed ex429)).networkCalled
        = true := by
  have h := generate_failure_classified_notes_unchanged exFailState ex429
    (by decide) (by decide) (by decide) (by decide)
  exact ⟨h.1, h.2.2.2.2 rfl, h.2.2.1, h.2.2.2.1⟩

/-- C2 counterexample: with prior notes `"Prior visit notes"` on the state
and an HTTP 429 failure, the code sets the rate-limit status but leaves
`medicalNotes` equal to the stale prior content; no visible error
placeholder replaces it. -/
theorem generate_failure_stale_notes_counterexample :
    (generateMedicalNotes exFailState (CompletionOutcome.failed ex429)).state.medicalNotes
        = "Prior visit notes" ∧
    exFailState.medicalNotes = "Prior visit notes" ∧
    (generateMedicalNotes exFailState (CompletionOutcome.failed ex429)).state.status
        = rateLimitMsg := by
  refine ⟨rfl, rfl, rfl⟩

/-! ## C3: empty transcript fails fast -/

/-- C3: for every state whose transcript is empty or whitespace-only,
invoking note generation issues no network call, sets the validation status
message, and leaves every other state field (in particular `medicalNotes`
and `isProcessing`) unchanged. -/
theorem generate_empty_transcript_no_call (st : AppState)
    (out : CompletionOutcome) (h : jsTrim st.transcript = "") :
    generateMedicalNotes st out =
      { state := { st with status := noTranscriptMsg },
        networkCalled := false, request := none } := by
  unfold generateMedicalNotes
  rw [if_pos h]

theorem generate_empty_transcript_no_call_witness :
    generateMedicalNotes exWsState (CompletionOutcome.success "X") =
      { state := { exWsState with status := noTranscriptMsg },
        networkCalled := false, request := none } :=
  generate_empty_transcript_no_call exWsState (CompletionOutcome.success "X")
    (by decide)

/-! ## C4: start() while already recording -/

/-- C4 counterexample: `startRecording` invoked on a state that is already
`Active` (with valid speech credentials) is not rejected: it re-requests the
microphone, attempts a new stream start, and replaces the engine handle. -/
theorem start_while_active_counterexample :
    exActiveState.isRecording = true ∧
    (startRecording exActiveState PermissionOutcome.granted
        StartOutcome.success 2).micRequested = true ∧
    (startRecording exActiveState PermissionOutcome.granted
        StartOutcome.success 2).streamStartAttempted = true ∧
    (startRecording exActiveState PermissionOutcome.granted
        StartOutcome.success 2).state.recognizer = some 2 ∧
    exActiveState.recognizer = some 1 := by
  refine ⟨rfl, rfl, rfl, rfl, rfl⟩

/-- C4 (amended): `startRecording` contains no `isRecording` guard: whenever
the two speech credentials are non-blank it requests the microphone — even
from an `Active` state — and on permission grant it installs a fresh engine
handle; rejection of re-entry is provided only by the view layer, which
disables the start button exactly while `isRecording` is true. -/
theorem start_no_internal_reentry_guard (st : AppState)
    (perm : PermissionOutcome) (out : StartOutcome) (h : Nat)
    (hk : st.apiSettings.speechKey ≠ "")
    (hr : st.apiSettings.speechRegion ≠ "") :
    (startRecording st perm out h).micRequested = true ∧
    (perm = PermissionOutcome.granted →
      (startRecording st perm out h).state.recognizer = some h) ∧
    (st.isRecording = true → startButtonDisabled st = true) := by
  refine ⟨?_, ?_, fun hrec => by simp [startButtonDisabled, hrec]⟩
  · unfold startRecording
    rw [if_neg (by simp [hk, hr])]
    cases perm <;> cases out <;> rfl
  · intro hgr
    subst hgr
    unfold startRecording
    rw [if_neg (by simp [hk, hr])]
    cases out <;> rfl

theorem start_no_internal_reentry_guard_witness :
    (startRecording exActiveState PermissionOutcome.granted
        StartOutcome.success 2).micRequested = true ∧
    (startRecording exActiveState PermissionOutcome.granted
        StartOutcome.success 2).state.recognizer = some 2 ∧
    startButtonDisabled exActiveState = true := by
  have h := start_no_internal_reentry_guard exActiveState
    PermissionOutcome.granted StartOutcome.success 2 (by decide) (by decide)
  exact ⟨h.1, h.2.1 rfl, h.2.2 rfl⟩

/-! ## C5: stop() idempotence and return to Idle -/

/-- C5: `stopRecording` from a state with no live engine handle leaves the
session not recording with the "Recording complete" status without touching
the engine (idempotent from `Idle`); and for every completion, success or
failure, the resulting state has `isRecording` false and the engine handle
cleared. -/
theorem stop_idempotent_and_returns_idle (st : AppState) (out : StopOutcome) :
    (st.recognizer = none →
      stopRecording st out =
        { state := { st with isRecording := false,
                             status := recordingCompleteMsg },
          engineStopRequested := false }) ∧
    (stopRecording st out).state.isRecording = false ∧
    (stopRecording st out).state.recognizer = none := by
  cases hrec : st.recognizer with
  | none =>
      refine ⟨fun _ => ?_, ?_, ?_⟩ <;> simp [stopRecording, hrec]
  | some r =>
      refine ⟨fun hn => ?_, ?_, ?_⟩
      · exact Option.noConfusion hn
      · cases out <;> simp [stopRecording, hrec]
      · cases out <;> simp [stopRecording, hrec]

theorem stop_idempotent_and_returns_idle_witness :
    stopRecording exIdleState StopOutcome.success =
      { state := { exIdleState with isRecording := false,
                                    status := recordingCompleteMsg },
        engineStopRequested := false } ∧
    (stopRecording exIdleState StopOutcome.success).state.isRecording = false := by
  have h := stop_idempotent_and_returns_idle exIdleState StopOutcome.success
  exact ⟨h.1 rfl, h.2.1⟩

/-! ## C6: saving a visit appends exactly one -/

theorem map_update_skip (x : Nat) (g : Patient → Patient) :
    ∀ l : List Patient, (∀ p ∈ l, p.id ≠ x) →
      (l.map fun p => if p.id = x then g p else p) = l := by
  intro l hl
  induction l with
  | nil => rfl
  | cons p rest ih =>
      simp only [List.map_cons]
      rw [if_neg (hl p (by simp)), ih fun q hq => hl q (by simp [hq])]

/-- C6: for every state whose patient list decomposes around the selected
patient (with the other patients carrying different ids, per the data
model's unique-id invariant) and whose notes are non-blank, the save-visit
action appends exactly one visit — built from the current transcript and
notes — to the end of the selected patient's visits, leaves every other
patient (and thus every pre-existing visit) unchanged, and leaves the
transcript and notes themselves unchanged. -/
theorem save_visit_appends_exactly_one (st : AppState) (sel : Patient)
    (ps₁ ps₂ : List Patient) (newVisitId : Nat) (dateStr tsStr : String)
    (hsel : st.selectedPatient = some sel)
    (hdecomp : st.patients = ps₁ ++ sel :: ps₂)
    (h1 : ∀ p ∈ ps₁, p.id ≠ sel.id)
    (h2 : ∀ p ∈ ps₂, p.id ≠ sel.id)
    (hnotes : jsTrim st.medicalNotes ≠ "") :
    (saveVisitToPatient st newVisitId dateStr tsStr).patients =
      ps₁ ++ { sel with visits := sel.visits ++
          [{ id := newVisitId, date := dateStr, transcript := st.transcript,
             notes := st.medicalNotes, timestamp := tsStr }] } :: ps₂ ∧
    (saveVisitToPatient st newVisitId dateStr tsStr).transcript
        = st.transcript ∧
    (saveVisitToPatient st newVisitId dateStr tsStr).medicalNotes
        = st.medicalNotes := by
  simp only [saveVisitToPatient, hsel]
  rw [if_neg hnotes]
  refine ⟨?_, rfl, rfl⟩
  simp only [hdecomp, List.map_append, List.map_cons]
  rw [map_update_skip sel.id _ ps₁ h1, map_update_skip sel.id _ ps₂ h2]
  simp

theorem save_visit_appends_exactly_one_witness :
    (saveVisitToPatient exSaveState 200 "2026-02-02T00:00:00.000Z"
        "2/2/2026, 9:00:00 AM").patients =
      [exPatientA] ++ { exPatientB with visits := exPatientB.visits ++
          [{ id := 200, date := "2026-02-02T00:00:00.000Z",
             transcript := exSaveState.transcript,
             notes := exSaveState.medicalNotes,
             timestamp := "2/2/2026, 9:00:00 AM" }] } :: [] ∧
    (saveVisitToPatient exSaveState 200 "2026-02-02T00:00:00.000Z"
        "2/2/2026, 9:00:00 AM").transcript = exSaveState.transcript ∧
    (saveVisitToPatient exSaveState 200 "2026-02-02T00:00:00.000Z"
        "2/2/2026, 9:00:00 AM").medicalNotes = exSaveState.medicalNotes :=
  save_visit_appends_exactly_one exSaveState exPatientB [exPatientA] []
    200 "2026-02-02T00:00:00.000Z" "2/2/2026, 9:00:00 AM"
    rfl rfl (by decide) (by decide) (by decide)

/-! ## C7: system prompt assembly -/

set_option maxRecDepth 16384 in
/-- C7: the assembled system prompt is a deterministic function of the AI
preferences equal to: the fixed specialty base sentence, then the style
clause selected by `noteStyle`, then the sections clause that includes
"Assessment" iff `includeAssessment` and "Plan" iff `includePlan` and always
includes "Chief Complaint" and "History of Present Illness", then the custom
instructions verbatim when non-empty, ending with the fixed terminology
directive; and for the concrete preferences
`{noteStyle := concise, includeAssessment := false, includePlan := true,
customInstructions := ""}` the prompt contains the concise-style clause,
omits "Assessment," and contains "Plan,". -/
theorem system_prompt_assembly :
    (∀ prefs : AiPreferences, buildSystemPrompt prefs = specSystemPrompt prefs) ∧
    hasSubstr (buildSystemPrompt concisePrefsEx)
      "Create concise, focused medical notes. " = true ∧
    hasSubstr (buildSystemPrompt concisePrefsEx) "Assessment," = false ∧
    hasSubstr (buildSystemPrompt concisePrefsEx) "Plan," = true := by
  refine ⟨fun prefs => ?_, by decide, by decide, by decide⟩
  simp only [buildSystemPrompt, specSystemPrompt, specStyleClause,
    specSectionsClause, specCustomClause, promptBase, promptClosing]
  split_ifs <;>
    simp [← String.append_assoc, str_empty_append, str_append_empty]

/-! ## C8: configuration fail-fast fields -/

/-- C8 counterexample: with a blank `openaiApiVersion` but non-blank
endpoint, key and deployment, note generation does not fail fast: the
network call is issued, the settings panel is not opened, and generation
proceeds to the success path. -/
theorem generate_blank_api_version_counterexample :
    exNoVersionState.apiSettings.openaiApiVersion = "" ∧
    (generateMedicalNotes exNoVersionState
        (CompletionOutcome.success "NOTES")).networkCalled = true ∧
    (generateMedicalNotes exNoVersionState
        (CompletionOutcome.success "NOTES")).state.status = genSuccessMsg ∧
    (generateMedicalNotes exNoVersionState
        (CompletionOutcome.success "NOTES")).state.showSettings = false := by
  refine ⟨rfl, rfl, rfl, rfl⟩

/-- C8 (amended): note generation with a non-empty transcript fails fast —
configuration-prompting status, settings panel opened, no network call, all
other fields untouched — exactly when the endpoint, key or deployment is
blank; the API version field is not among the checked fields, so whenever
the three checked fields are non-blank the network call is issued regardless
of the API version. -/
theorem generate_config_failfast_fields (st : AppState)
    (out : CompletionOutcome) :
    (jsTrim st.transcript ≠ "" →
      (st.apiSettings.openaiEndpoint = "" ∨ st.apiSettings.openaiKey = "" ∨
        st.apiSettings.openaiDeployment = "") →
      generateMedicalNotes st out =
        { state := { st with status := openAiConfigMsg, showSettings := true },
          networkCalled := false, request := none }) ∧
    (jsTrim st.transcript ≠ "" → st.apiSettings.openaiEndpoint ≠ "" →
      st.apiSettings.openaiKey ≠ "" → st.apiSettings.openaiDeployment ≠ "" →
      (generateMedicalNotes st out).networkCalled = true) := by
  constructor
  · intro ht hblank
    unfold generateMedicalNotes
    rw [if_neg ht, if_pos hblank]
  · intro ht hep hk hd
    unfold generateMedicalNotes
    rw [if_neg ht, if_neg (by simp [hep, hk, hd])]
    cases out <;> rfl

theorem generate_config_failfast_fields_witness :
    generateMedicalNotes exNoKeyState (CompletionOutcome.success "N") =
      { state := { exNoKeyState with status := openAiConfigMsg,
                                     showSettings := true },
        networkCalled := false, request := none } ∧
    (generateMedicalNotes exNoVersionState
        (CompletionOutcome.success "N")).networkCalled = true :=
  ⟨(generate_config_failfast_fields exNoKeyState
        (CompletionOutcome.success "N")).1 (by decide) (by decide),
   (generate_config_failfast_fields exNoVersionState
        (CompletionOutcome.success "N")).2 (by decide) (by decide) (by decide)
        (by decide)⟩

/-! ## C10: save-visit precondition failure frame -/

/-- C10: for every state in which no patient is selected or the notes are
blank (empty or whitespace-only), the save-visit action only sets the error
status: the patient list, the selected patient, the transcript and the notes
are all left exactly as they were. -/
theorem save_visit_precondition_frame (st : AppState) (newVisitId : Nat)
    (dateStr tsStr : String)
    (h : st.selectedPatient = none ∨ jsTrim st.medicalNotes = "") :
    saveVisitToPatient st newVisitId dateStr tsStr =
      { st with status := saveVisitErrorMsg } := by
  rcases h with hn | hn
  · simp only [saveVisitToPatient, hn]
  · cases hsel : st.selectedPatient with
    | none => simp [saveVisitToPatient, hsel]
    | some sel => simp [saveVisitToPatient, hsel, hn]

theorem save_visit_precondition_frame_witness :
    saveVisitToPatient exNoSelState 7 "2026-03-03T00:00:00.000Z"
        "3/3/2026, 8:00:00 AM" =
      { exNoSelState with status := saveVisitErrorMsg } :=
  save_visit_precondition_frame exNoSelState 7 "2026-03-03T00:00:00.000Z"
    "3/3/2026, 8:00:00 AM" (Or.inl rfl)

/-! ## C9 lemmas: decimal digits -/

theorem digitChar_spec : ∀ d, d < 10 →
    (digitChar d).isDigit = true ∧ (digitChar d).toNat - 48 = d := by
  decide

theorem parseDigits_stop (rest : List Char) (h : headNotDigit rest = true)
    (a : Nat) : parseDigits a rest = (a, rest) := by
  cases rest with
  | nil => rfl
  | cons c t =>
      simp only [headNotDigit, Bool.not_eq_true'] at h
      simp [parseDigits, h]

theorem natCharsAux_zero (acc : List Char) : natCharsAux 0 acc = acc := by
  unfold natCharsAux
  simp

theorem natCharsAux_append (n : Nat) :
    ∀ acc, natCharsAux n acc = natCharsAux n [] ++ acc := by
  induction n using Nat.strong_induction_on with
  | _ n ih =>
    intro acc
    by_cases h : n = 0
    · subst h
      simp [natCharsAux_zero]
    · have hlt : n / 10 < n := Nat.div_lt_self (Nat.pos_of_ne_zero h) (by omega)
      unfold natCharsAux
      rw [dif_neg h, dif_neg h]
      rw [ih (n / 10) hlt (digitChar (n % 10) :: acc),
          ih (n / 10) hlt [digitChar (n % 10)]]
      simp

theorem natCharsAux_all_digits (n : Nat) :
    ∀ c ∈ natCharsAux n [], c.isDigit = true := by
  induction n using Nat.strong_induction_on with
  | _ n ih =>
    by_cases h : n = 0
    · subst h
      simp [natCharsAux_zero]
    · have hlt : n / 10 < n := Nat.div_lt_self (Nat.pos_of_ne_zero h) (by omega)
      unfold natCharsAux
      rw [dif_neg h, natCharsAux_append]
      intro c hc
      rcases List.mem_append.mp hc with hc1 | hc2
      · exact ih (n / 10) hlt c hc1
      · have : c = digitChar (n % 10) := by simpa using hc2
        subst this
        exact (digitChar_spec (n % 10) (Nat.mod_lt n (by omega))).1

theorem natCharsAux_ne_nil (n : Nat) (h : n ≠ 0) : natCharsAux n [] ≠ [] := by
  unfold natCharsAux
  rw [dif_neg h, natCharsAux_append]
  simp

theorem parseDigits_digitList :
    ∀ (ds rest : List Char) (a : Nat), (∀ c ∈ ds, c.isDigit = true) →
      headNotDigit rest = true →
      parseDigits a (ds ++ rest) =
        (ds.foldl (fun acc c => acc * 10 + (c.toNat - 48)) a, rest) := by
  intro ds
  induction ds with
  | nil =>
      intro rest a _ hrest
      simpa using parseDigits_stop rest hrest a
  | cons c t ih =>
      intro rest a hds hrest
      have hc : c.isDigit = true := hds c (by simp)
      simp only [List.cons_append, parseDigits, hc, if_true, List.foldl_cons]
      exact ih rest (a * 10 + (c.toNat - 48)) (fun x hx => hds x (by simp [hx])) hrest

theorem foldl_natCharsAux (n : Nat) :
    0 < n → ∀ a : Nat,
      (natCharsAux n []).foldl (fun acc c => acc * 10 + (c.toNat - 48)) a =
        a * pow10 n + n := by
  induction n using Nat.strong_induction_on with
  | _ n ih =>
    intro hn a
    by_cases h10 : n < 10
    · have hne : n ≠ 0 := by omega
      have hd : n / 10 = 0 := Nat.div_eq_of_lt h10
      have hm : n % 10 = n := Nat.mod_eq_of_lt h10
      unfold natCharsAux
      rw [dif_neg hne, hd, hm, natCharsAux_zero]
      have hp : pow10 n = 10 := by
        unfold pow10
        rw [dif_pos h10]
      rw [hp]
      simp [List.foldl_cons, (digitChar_spec n h10).2]
    · have hne : n ≠ 0 := by omega
      have hlt : n / 10 < n := Nat.div_lt_self (by omega) (by omega)
      unfold natCharsAux
      rw [dif_neg hne, natCharsAux_append, List.foldl_append]
      rw [ih (n / 10) hlt (by omega) a]
      simp only [List.foldl_cons, List.foldl_nil]
      rw [(digitChar_spec (n % 10) (Nat.mod_lt n (by omega))).2]
      have hp : pow10 n = 10 * pow10 (n / 10) := by
        conv_lhs => rw [pow10]
        rw [dif_neg h10]
      rw [hp]
      calc (a * pow10 (n / 10) + n / 10) * 10 + n % 10
          = a * pow10 (n / 10) * 10 + (10 * (n / 10) + n % 10) := by ring
        _ = a * pow10 (n / 10) * 10 + n := by rw [Nat.div_add_mod]
        _ = a * (10 * pow10 (n / 10)) + n := by ring

theorem parseDigits_natChars (n : Nat) (rest : List Char)
    (hrest : headNotDigit rest = true) :
    parseDigits 0 (natChars n ++ rest) = (n, rest) := by
  by_cases h : n = 0
  · subst h
    simp only [natChars, if_pos rfl, List.cons_append, List.nil_append]
    simp [parseDigits, parseDigits_stop rest hrest]
  · rw [natChars, if_neg h,
        parseDigits_digitList (natCharsAux n []) rest 0
          (natCharsAux_all_digits n) hrest,
        foldl_natCharsAux n (Nat.pos_of_ne_zero h) 0]
    simp

/-! ## C9 lemmas: string escaping -/

theorem hexVal_hexDigitChar : ∀ m, m < 16 → hexVal (hexDigitChar m) = some m := by
  decide

theorem hexVal_zero : hexVal '0' = some 0 := by
  decide

theorem escapeChar_quote : escapeChar '"' = ['\\', '"'] := by decide

theorem escapeChar_backslash : escapeChar '\\' = ['\\', '\\'] := by decide

theorem escapeChar_lf : escapeChar '\n' = ['\\', 'n'] := by decide

theorem escapeChar_tab : escapeChar '\t' = ['\\', 't'] := by decide

theorem escapeChar_cr : escapeChar '\r' = ['\\', 'r'] := by decide

theorem escapeChar_bsp : escapeChar '\x08' = ['\\', 'b'] := by decide

theorem escapeChar_ff : escapeChar '\x0c' = ['\\', 'f'] := by decide

theorem parseStrChars_escChars :
    ∀ (cs rest : List Char), parseStrChars (escChars cs ++ '"' :: rest) = some (cs, rest) := by
  intro cs
  induction cs with
  | nil =>
      intro rest
      rw [escChars, List.nil_append]
      unfold parseStrChars
      simp
  | cons c t ih =>
      intro rest
      rw [escChars, List.append_assoc]
      by_cases h1 : c = '"'
      · subst h1
        rw [escapeChar_quote, List.cons_append, List.cons_append, List.nil_append]
        unfold parseStrChars
        simp [unescapeChar, ih]
      · by_cases h2 : c = '\\'
        · subst h2
          rw [escapeChar_backslash, List.cons_append, List.cons_append,
            List.nil_append]
          unfold parseStrChars
          simp [unescapeChar, ih]
        · by_cases h3 : c = '\n'
          · subst h3
            rw [escapeChar_lf, List.cons_append, List.cons_append,
              List.nil_append]
            unfold parseStrChars
            simp [unescapeChar, ih]
          · by_cases h4 : c = '\t'
            · subst h4
              rw [escapeChar_tab, List.cons_append, List.cons_append,
                List.nil_append]
              unfold parseStrChars
              simp [unescapeChar, ih]
            · by_cases h5 : c = '\r'
              · subst h5
                rw [escapeChar_cr, List.cons_append, List.cons_append,
                  List.nil_append]
                unfold parseStrChars
                simp [unescapeChar, ih]
              · by_cases h6 : c = '\x08'
                · subst h6
                  rw [escapeChar_bsp, List.cons_append, List.cons_append,
                    List.nil_append]
                  unfold parseStrChars
                  simp [unescapeChar, ih]
                · by_cases h7 : c = '\x0c'
                  · subst h7
                    rw [escapeChar_ff, List.cons_append, List.cons_append,
                      List.nil_append]
                    unfold parseStrChars
                    simp [unescapeChar, ih]
                  · by_cases h8 : c.toNat < 32
                    · have hv1 : hexVal (hexDigitChar (c.toNat / 16)) =
                          some (c.toNat / 16) :=
                        hexVal_hexDigitChar _ (by omega)
                      have hv2 : hexVal (hexDigitChar (c.toNat % 16)) =
                          some (c.toNat % 16) :=
                        hexVal_hexDigitChar _ (Nat.mod_lt _ (by omega))
                      have hchar : c.toNat / 16 * 16 + c.toNat % 16 = c.toNat := by
                        omega
                      have hesc : escapeChar c =
                          ['\\', 'u', '0', '0', hexDigitChar (c.toNat / 16),
                            hexDigitChar (c.toNat % 16)] := by
                        unfold escapeChar
                        rw [if_neg h1, if_neg h2, if_neg h3, if_neg h4,
                          if_neg h5, if_neg h6, if_neg h7, if_pos h8]
                      rw [hesc, List.cons_append, List.cons_append,
                        List.cons_append, List.cons_append, List.cons_append,
                        List.cons_append, List.nil_append]
                      unfold parseStrChars
                      simp [hv1, hv2, hexVal_zero, hchar, Char.ofNat_toNat, ih]
                    · have hesc : escapeChar c = [c] := by
                        unfold escapeChar
                        rw [if_neg h1, if_neg h2, if_neg h3, if_neg h4,
                          if_neg h5, if_neg h6, if_neg h7, if_neg h8]
                      rw [hesc, List.cons_append, List.nil_append]
                      unfold parseStrChars
                      simp [h1, h2, ih]

/-! ## C9 lemmas: equations of the mutual serializer -/

theorem stringifyJson_str (s : String) :
    stringifyJson (Json.str s) = '"' :: (escChars s.data ++ ['"']) := by
  unfold stringifyJson
  rfl

theorem stringifyJson_num (n : Nat) :
    stringifyJson (Json.num n) = natChars n := by
  unfold stringifyJson
  rfl

theorem stringifyJson_true :
    stringifyJson (Json.boolean true) = ['t', 'r', 'u', 'e'] := by
  unfold stringifyJson
  rfl

theorem stringifyJson_false :
    stringifyJson (Json.boolean false) = ['f', 'a', 'l', 's', 'e'] := by
  unfold stringifyJson
  rfl

theorem stringifyJson_arr (items : List Json) :
    stringifyJson (Json.arr items) = '[' :: (stringifyItems items ++ [']']) := by
  unfold stringifyJson
  rfl

theorem stringifyJson_obj (fields : List (String × Json)) :
    stringifyJson (Json.obj fields) =
      '\x7b' :: (stringifyFields fields ++ ['\x7d']) := by
  unfold stringifyJson
  rfl

theorem stringifyItems_single (j : Json) :
    stringifyItems [j] = stringifyJson j := by
  unfold stringifyItems
  rfl

theorem stringifyItems_cons2 (j j2 : Json) (rest : List Json) :
    stringifyItems (j :: j2 :: rest) =
      stringifyJson j ++ (',' :: stringifyItems (j2 :: rest)) := by
  conv_lhs => unfold stringifyItems

theorem fieldChars_eq (k : String) (v : Json) :
    fieldChars k v = '"' :: (escChars k.data ++ ('"' :: ':' :: stringifyJson v)) := by
  unfold fieldChars
  rfl

theorem stringifyFields_single (k : String) (v : Json) :
    stringifyFields [(k, v)] = fieldChars k v := by
  unfold stringifyFields
  rfl

theorem stringifyFields_cons2 (k : String) (v : Json) (f2 : String × Json)
    (rest : List (String × Json)) :
    stringifyFields ((k, v) :: f2 :: rest) =
      fieldChars k v ++ (',' :: stringifyFields (f2 :: rest)) := by
  conv_lhs => unfold stringifyFields

/-! ## C9 lemmas: head shapes and weights -/

theorem isDigit_head_ne (c : Char) (h : c.isDigit = true) :
    c ≠ '"' ∧ c ≠ '[' ∧ c ≠ '\x7b' ∧ c ≠ 't' ∧ c ≠ 'f' ∧ c ≠ ']' := by
  refine ⟨?_, ?_, ?_, ?_, ?_, ?_⟩ <;>
    (intro he; subst he; exact absurd h (by decide))

theorem stringifyJson_head (j : Json) :
    ∃ c cs, stringifyJson j = c :: cs ∧ c ≠ ']' := by
  cases j with
  | str s =>
      exact ⟨'"', _, stringifyJson_str s, by decide⟩
  | num n =>
      by_cases h : n = 0
      · subst h
        exact ⟨'0', [], by rw [stringifyJson_num]; rfl, by decide⟩
      · have hne := natCharsAux_ne_nil n h
        obtain ⟨c, cs, hcons⟩ := List.exists_cons_of_ne_nil hne
        have hd : c.isDigit = true :=
          natCharsAux_all_digits n c (by rw [hcons]; simp)
        refine ⟨c, cs, ?_, (isDigit_head_ne c hd).2.2.2.2.2⟩
        rw [stringifyJson_num, natChars, if_neg h, hcons]
  | boolean b =>
      cases b with
      | true => exact ⟨'t', _, stringifyJson_true, by decide⟩
      | false => exact ⟨'f', _, stringifyJson_false, by decide⟩
  | arr items =>
      exact ⟨'[', _, stringifyJson_arr items, by decide⟩
  | obj fields =>
      exact ⟨'\x7b', _, stringifyJson_obj fields, by decide⟩

theorem stringifyItems_head (j0 : Json) (t : List Json) :
    ∃ c cs, stringifyItems (j0 :: t) = c :: cs ∧ c ≠ ']' := by
  obtain ⟨c, cs, hc, hne⟩ := stringifyJson_head j0
  cases t with
  | nil =>
      exact ⟨c, cs, by rw [stringifyItems_single, hc], hne⟩
  | cons j2 t2 =>
      refine ⟨c, cs ++ (',' :: stringifyItems (j2 :: t2)), ?_, hne⟩
      rw [stringifyItems_cons2, hc, List.cons_append]

theorem stringifyFields_head (k : String) (v : Json)
    (t : List (String × Json)) :
    ∃ cs, stringifyFields ((k, v) :: t) = '"' :: cs := by
  cases t with
  | nil =>
      exact ⟨_, by rw [stringifyFields_single, fieldChars_eq]⟩
  | cons f2 t2 =>
      refine ⟨escChars k.data ++ ('"' :: ':' :: stringifyJson v) ++
        (',' :: stringifyFields (f2 :: t2)), ?_⟩
      rw [stringifyFields_cons2, fieldChars_eq, List.cons_append]

theorem jweight_pos (j : Json) : 1 ≤ jweight j := by
  cases j <;> (unfold jweight; omega)

theorem jweightItems_cons (v : Json) (t : List Json) :
    jweightItems (v :: t) = 1 + jweight v + jweightItems t := by
  conv_lhs => unfold jweightItems

theorem jweightFields_cons (k : String) (v : Json)
    (t : List (String × Json)) :
    jweightFields ((k, v) :: t) = 1 + jweight v + jweightFields t := by
  conv_lhs => unfold jweightFields

theorem stringifyItems_nil : stringifyItems [] = [] := by
  unfold stringifyItems
  rfl

theorem stringifyFields_nil : stringifyFields [] = [] := by
  unfold stringifyFields
  rfl

theorem jweightItems_nil : jweightItems [] = 0 := by
  unfold jweightItems
  rfl

theorem jweightFields_nil : jweightFields [] = 0 := by
  unfold jweightFields
  rfl

theorem jweight_arr (items : List Json) :
    jweight (Json.arr items) = 1 + jweightItems items := by
  conv_lhs => unfold jweight

theorem jweight_obj (fields : List (String × Json)) :
    jweight (Json.obj fields) = 1 + jweightFields fields := by
  conv_lhs => unfold jweight

theorem headNotDigit_cons (c : Char) (t : List Char) :
    headNotDigit (c :: t) = !c.isDigit := rfl

theorem natChars_head (n : Nat) :
    ∃ c cs, natChars n = c :: cs ∧ c.isDigit = true := by
  by_cases h : n = 0
  · subst h
    exact ⟨'0', [], rfl, by decide⟩
  · obtain ⟨c, cs, hcons⟩ := List.exists_cons_of_ne_nil (natCharsAux_ne_nil n h)
    exact ⟨c, cs, by rw [natChars, if_neg h, hcons],
      natCharsAux_all_digits n c (by rw [hcons]; simp)⟩

theorem parseVal_succ (f : Nat) (cs : List Char) :
    parseVal (f + 1) cs = parseValStep (parseItems f) (parseFields f) cs := by
  unfold parseVal
  rfl

theorem parseItems_succ (f : Nat) (cs : List Char) :
    parseItems (f + 1) cs = parseItemsStep (parseVal f) (parseItems f) cs := by
  unfold parseItems
  rfl

theorem parseFields_succ (f : Nat) (cs : List Char) :
    parseFields (f + 1) cs = parseFieldsStep (parseVal f) (parseFields f) cs := by
  unfold parseFields
  rfl

theorem parseValStep_arr_nonempty
    (pI : List Char → Option (List Json × List Char))
    (pF : List Char → Option (List (String × Json) × List Char))
    (c0 : Char) (cs0 : List Char) (hne : c0 ≠ ']') :
    parseValStep pI pF ('[' :: c0 :: cs0) =
      (pI (c0 :: cs0)).map fun p => (Json.arr p.1, p.2) := by
  unfold parseValStep
  simp only []
  rw [if_neg (by decide : ¬(('[' : Char) = '"')), if_pos trivial]
  split
  · next h => simp_all
  · rfl

theorem parseValStep_obj_nonempty
    (pI : List Char → Option (List Json × List Char))
    (pF : List Char → Option (List (String × Json) × List Char))
    (c0 : Char) (cs0 : List Char) (hne : c0 ≠ '\x7d') :
    parseValStep pI pF ('\x7b' :: c0 :: cs0) =
      (pF (c0 :: cs0)).map fun p => (Json.obj p.1, p.2) := by
  unfold parseValStep
  simp only []
  rw [if_neg (by decide : ¬(('\x7b' : Char) = '"')),
    if_neg (by decide : ¬(('\x7b' : Char) = '[')), if_pos trivial]
  split
  · next h => simp_all
  · rfl

theorem parseValStep_quote
    (pI : List Char → Option (List Json × List Char))
    (pF : List Char → Option (List (String × Json) × List Char))
    (cs : List Char) :
    parseValStep pI pF ('"' :: cs) =
      (parseStrChars cs).map fun p => (Json.str ⟨p.1⟩, p.2) := by
  unfold parseValStep
  simp only []
  rw [if_pos trivial]

theorem parseValStep_true
    (pI : List Char → Option (List Json × List Char))
    (pF : List Char → Option (List (String × Json) × List Char))
    (rest : List Char) :
    parseValStep pI pF ('t' :: 'r' :: 'u' :: 'e' :: rest) =
      some (Json.boolean true, rest) := by
  unfold parseValStep
  simp only []
  rw [if_neg (by decide : ¬(('t' : Char) = '"')),
    if_neg (by decide : ¬(('t' : Char) = '[')),
    if_neg (by decide : ¬(('t' : Char) = '\x7b')), if_pos trivial]

theorem parseValStep_bfalse
    (pI : List Char → Option (List Json × List Char))
    (pF : List Char → Option (List (String × Json) × List Char))
    (rest : List Char) :
    parseValStep pI pF ('f' :: 'a' :: 'l' :: 's' :: 'e' :: rest) =
      some (Json.boolean false, rest) := by
  unfold parseValStep
  simp only []
  rw [if_neg (by decide : ¬(('f' : Char) = '"')),
    if_neg (by decide : ¬(('f' : Char) = '[')),
    if_neg (by decide : ¬(('f' : Char) = '\x7b')),
    if_neg (by decide : ¬(('f' : Char) = 't')), if_pos trivial]

theorem parseValStep_arr_nil
    (pI : List Char → Option (List Json × List Char))
    (pF : List Char → Option (List (String × Json) × List Char))
    (r : List Char) :
    parseValStep pI pF ('[' :: ']' :: r) = some (Json.arr [], r) := by
  unfold parseValStep
  simp only []
  rw [if_neg (by decide : ¬(('[' : Char) = '"')), if_pos trivial]

theorem parseValStep_obj_nil
    (pI : List Char → Option (List Json × List Char))
    (pF : List Char → Option (List (String × Json) × List Char))
    (r : List Char) :
    parseValStep pI pF ('\x7b' :: '\x7d' :: r) = some (Json.obj [], r) := by
  unfold parseValStep
  simp only []
  rw [if_neg (by decide : ¬(('\x7b' : Char) = '"')),
    if_neg (by decide : ¬(('\x7b' : Char) = '[')), if_pos trivial]

theorem parseValStep_digit
    (pI : List Char → Option (List Json × List Char))
    (pF : List Char → Option (List (String × Json) × List Char))
    (c : Char) (cs : List Char) (h : c.isDigit = true) :
    parseValStep pI pF (c :: cs) =
      some (Json.num (parseDigits 0 (c :: cs)).1,
        (parseDigits 0 (c :: cs)).2) := by
  obtain ⟨h1, h2, h3, h4, h5, _⟩ := isDigit_head_ne c h
  unfold parseValStep
  simp only []
  rw [if_neg h1, if_neg h2, if_neg h3, if_neg h4, if_neg h5, if_pos h]

/-! ## C9: the round-trip over the fuel bound -/

theorem parse_roundtrip_fuel : ∀ fuel : Nat,
    (∀ (j : Json) (rest : List Char), jweight j ≤ fuel →
        headNotDigit rest = true →
        parseVal fuel (stringifyJson j ++ rest) = some (j, rest)) ∧
    (∀ (items : List Json) (rest : List Char), items ≠ [] →
        jweightItems items ≤ fuel →
        parseItems fuel (stringifyItems items ++ ']' :: rest) =
          some (items, rest)) ∧
    (∀ (fields : List (String × Json)) (rest : List Char), fields ≠ [] →
        jweightFields fields ≤ fuel →
        parseFields fuel (stringifyFields fields ++ '\x7d' :: rest) =
          some (fields, rest)) := by
  intro fuel
  induction fuel with
  | zero =>
      refine ⟨fun j rest hw _ => ?_, fun items rest hne hw => ?_,
        fun fields rest hne hw => ?_⟩
      · exact absurd hw (by have := jweight_pos j; omega)
      · cases items with
        | nil => exact absurd rfl hne
        | cons v t =>
            rw [jweightItems_cons] at hw
            exact absurd hw (by omega)
      · cases fields with
        | nil => exact absurd rfl hne
        | cons f0 t =>
            obtain ⟨k, v⟩ := f0
            rw [jweightFields_cons] at hw
            exact absurd hw (by omega)
  | succ f ih =>
      obtain ⟨ihA, ihB, ihC⟩ := ih
      refine ⟨fun j rest hw hnd => ?_, fun items rest hne hw => ?_,
        fun fields rest hne hw => ?_⟩
      · -- a single value
        rw [parseVal_succ]
        cases j with
        | str s =>
            rw [stringifyJson_str, List.cons_append, List.append_assoc,
              List.singleton_append, parseValStep_quote,
              parseStrChars_escChars]
            rfl
        | num n =>
            rw [stringifyJson_num]
            obtain ⟨c, cs, hcons, hdig⟩ := natChars_head n
            rw [hcons, List.cons_append, parseValStep_digit _ _ c _ hdig,
              ← List.cons_append, ← hcons, parseDigits_natChars n rest hnd]
        | boolean b =>
            cases b with
            | true =>
                rw [stringifyJson_true]
                simp only [List.cons_append, List.nil_append]
                exact parseValStep_true _ _ rest
            | false =>
                rw [stringifyJson_false]
                simp only [List.cons_append, List.nil_append]
                exact parseValStep_bfalse _ _ rest
        | arr items =>
            rw [stringifyJson_arr, List.cons_append, List.append_assoc,
              List.singleton_append]
            cases items with
            | nil =>
                rw [stringifyItems_nil, List.nil_append]
                exact parseValStep_arr_nil _ _ rest
            | cons j0 t =>
                obtain ⟨c0, cs0, hc0, hne0⟩ := stringifyItems_head j0 t
                rw [hc0, List.cons_append,
                  parseValStep_arr_nonempty _ _ c0 _ hne0,
                  ← List.cons_append, ← hc0,
                  ihB (j0 :: t) rest (by simp)
                    (by rw [jweight_arr] at hw; omega)]
                rfl
        | obj fields =>
            rw [stringifyJson_obj, List.cons_append, List.append_assoc,
              List.singleton_append]
            cases fields with
            | nil =>
                rw [stringifyFields_nil, List.nil_append]
                exact parseValStep_obj_nil _ _ rest
            | cons f0 t =>
                obtain ⟨k, v⟩ := f0
                obtain ⟨cs0, hc0⟩ := stringifyFields_head k v t
                rw [hc0, List.cons_append,
                  parseValStep_obj_nonempty _ _ '"' _ (by decide),
                  ← List.cons_append, ← hc0,
                  ihC ((k, v) :: t) rest (by simp)
                    (by rw [jweight_obj] at hw; omega)]
                rfl
      · -- a non-empty element list
        rw [parseItems_succ]
        cases items with
        | nil => exact absurd rfl hne
        | cons v t =>
            rw [jweightItems_cons] at hw
            cases t with
            | nil =>
                rw [stringifyItems_single]
                unfold parseItemsStep
                rw [ihA v (']' :: rest) (by omega)
                  (by rw [headNotDigit_cons]; decide)]
                rfl
            | cons v2 t2 =>
                rw [stringifyItems_cons2, List.append_assoc, List.cons_append]
                unfold parseItemsStep
                rw [ihA v (',' :: (stringifyItems (v2 :: t2) ++ ']' :: rest))
                  (by omega) (by rw [headNotDigit_cons]; decide)]
                simp only []
                rw [ihB (v2 :: t2) rest (by simp) (by omega)]
                rfl
      · -- a non-empty field list
        rw [parseFields_succ]
        cases fields with
        | nil => exact absurd rfl hne
        | cons f0 t =>
            obtain ⟨k, v⟩ := f0
            rw [jweightFields_cons] at hw
            cases t with
            | nil =>
                rw [stringifyFields_single, fieldChars_eq]
                simp only [List.cons_append, List.append_assoc]
                unfold parseFieldsStep
                simp only []
                rw [parseStrChars_escChars]
                simp only []
                rw [ihA v ('\x7d' :: rest) (by omega)
                  (by rw [headNotDigit_cons]; decide)]
                rfl
            | cons f2 t2 =>
                rw [stringifyFields_cons2, fieldChars_eq]
                simp only [List.cons_append, List.append_assoc]
                unfold parseFieldsStep
                simp only []
                rw [parseStrChars_escChars]
                simp only []
                rw [ihA v (',' :: (stringifyFields (f2 :: t2) ++ '\x7d' :: rest))
                  (by omega) (by rw [headNotDigit_cons]; decide)]
                simp only []
                rw [ihC (f2 :: t2) rest (by simp) (by omega)]
                rfl

theorem jweight_str (s : String) : jweight (Json.str s) = 1 := by
  conv_lhs => unfold jweight

theorem jweight_num (n : Nat) : jweight (Json.num n) = 1 := by
  conv_lhs => unfold jweight

theorem jweight_boolean (b : Bool) : jweight (Json.boolean b) = 1 := by
  conv_lhs => unfold jweight

theorem jweight_le_length : ∀ k : Nat,
    (∀ j : Json, sizeOf j ≤ k → jweight j ≤ (stringifyJson j).length) ∧
    (∀ items : List Json, sizeOf items ≤ k →
        jweightItems items ≤ (stringifyItems items).length + 1) ∧
    (∀ fields : List (String × Json), sizeOf fields ≤ k →
        jweightFields fields ≤ (stringifyFields fields).length + 1) := by
  intro k
  induction k using Nat.strong_induction_on with
  | _ k ih =>
    refine ⟨fun j hsz => ?_, fun items hsz => ?_, fun fields hsz => ?_⟩
    · cases j with
      | str s =>
          rw [jweight_str, stringifyJson_str]
          simp
      | num n =>
          obtain ⟨c, cs, hcons, _⟩ := natChars_head n
          rw [jweight_num, stringifyJson_num, hcons]
          simp
      | boolean b =>
          cases b with
          | true => rw [jweight_boolean, stringifyJson_true]; simp
          | false => rw [jweight_boolean, stringifyJson_false]; simp
      | arr items =>
          have hlt : sizeOf items < k := by
            have h1 : sizeOf items < sizeOf (Json.arr items) := by
              simp
            omega
          have h2 := (ih (sizeOf items) hlt).2.1 items le_rfl
          rw [jweight_arr, stringifyJson_arr]
          simp only [List.length_cons, List.length_append, List.length_singleton]
          omega
      | obj fields =>
          have hlt : sizeOf fields < k := by
            have h1 : sizeOf fields < sizeOf (Json.obj fields) := by
              simp
            omega
          have h2 := (ih (sizeOf fields) hlt).2.2 fields le_rfl
          rw [jweight_obj, stringifyJson_obj]
          simp only [List.length_cons, List.length_append, List.length_singleton]
          omega
    · cases items with
      | nil =>
          rw [jweightItems_nil]
          omega
      | cons v t =>
          have hszc : sizeOf (v :: t) = 1 + sizeOf v + sizeOf t := by
            simp
          have hv : sizeOf v < k := by omega
          have hv2 := (ih (sizeOf v) hv).1 v le_rfl
          rw [jweightItems_cons]
          cases t with
          | nil =>
              rw [stringifyItems_single, jweightItems_nil]
              omega
          | cons v2 t2 =>
              have ht : sizeOf (v2 :: t2) < k := by omega
              have ht2 := (ih (sizeOf (v2 :: t2)) ht).2.1 (v2 :: t2) le_rfl
              rw [stringifyItems_cons2]
              simp only [List.length_append, List.length_cons]
              omega
    · cases fields with
      | nil =>
          rw [jweightFields_nil]
          omega
      | cons f0 t =>
          obtain ⟨key, v⟩ := f0
          have hszc : sizeOf ((key, v) :: t) = 1 + (1 + sizeOf key + sizeOf v) + sizeOf t := by
            simp
          have hv : sizeOf v < k := by omega
          have hv2 := (ih (sizeOf v) hv).1 v le_rfl
          rw [jweightFields_cons]
          cases t with
          | nil =>
              rw [stringifyFields_single, fieldChars_eq, jweightFields_nil]
              simp only [List.length_cons, List.length_append]
              omega
          | cons f2 t2 =>
              have ht : sizeOf (f2 :: t2) < k := by omega
              have ht2 := (ih (sizeOf (f2 :: t2)) ht).2.2 (f2 :: t2) le_rfl
              rw [stringifyFields_cons2, fieldChars_eq]
              simp only [List.length_append, List.length_cons]
              omega

theorem parse_stringify (j : Json) :
    parseJsonString (stringifyString j) = some j := by
  have hle : jweight j ≤ (stringifyJson j).length :=
    (jweight_le_length (sizeOf j)).1 j le_rfl
  have hfuel : jweight j ≤ (stringifyString j).length + 1 := by
    have hl : (stringifyString j).length = (stringifyJson j).length := rfl
    omega
  have h := (parse_roundtrip_fuel ((stringifyString j).length + 1)).1 j [] hfuel rfl
  rw [List.append_nil] at h
  simp only [parseJsonString]
  rw [show (stringifyString j).data = stringifyJson j from rfl, h]

theorem patientsKey_ne_apiSettingsKey : patientsKey ≠ apiSettingsKey := by
  decide

theorem patientsKey_ne_preferencesKey : patientsKey ≠ preferencesKey := by
  decide

theorem preferencesKey_ne_apiSettingsKey : preferencesKey ≠ apiSettingsKey := by
  decide

/-- C9: persistence round-trip: for every Patient Store list, AI Preferences
document and API Settings document, saving the three documents wholesale to
the persistent store under their fixed keys (each as its serialized JSON)
and then running the startup load reproduces exactly the prior in-memory
documents: JSON serialize-then-parse is the identity on these document
values. -/
theorem storage_roundtrip (ps : List Patient) (prefs : AiPreferences)
    (sets : ApiSettings) (store : Storage) :
    loadStartup
      (saveApiSettingsStorage
        (savePreferencesStorage
          (savePatientsStorage store (encPatients ps)) (encPreferences prefs))
        (encApiSettings sets)) =
      (some (encPatients ps), some (encPreferences prefs),
        some (encApiSettings sets)) := by
  unfold loadStartup saveApiSettingsStorage savePreferencesStorage
    savePatientsStorage storageSet
  simp only [Prod.mk.injEq]
  refine ⟨?_, ?_, ?_⟩ <;>
    simp [patientsKey_ne_apiSettingsKey, patientsKey_ne_preferencesKey,
      preferencesKey_ne_apiSettingsKey, parse_stringify]

end MedScribe
